import Mathlib

/-!
Verification of the elk-tide-generator quality-gated refinement loop.

Shallow embedding of:
- scripts/execute_detection_tests.py (calculate_metrics, test_rule, main aggregation)
- scripts/refine_detections_v2.py (diagnose_failure)
- detection_agent/quality_retry.py (run_with_quality_retry, run_integration_tests)
- detection_agent/agent.py (generate_with_retry, retry configs, validation filter)
- detection_agent/schemas/detection_rule.py (DetectionRule.validate_test_cases)

Python floats are modelled by exact rationals; Python round(x, 3) is modelled by
round-half-to-even on the rational scaled by 1000.
-/

/-- Raw confusion-matrix counts, the `results` dict of execute_detection_tests.py
(keys TP/FP/TN/FN). -/
structure Counts where
  tp : Nat
  fp : Nat
  tn : Nat
  fn : Nat
deriving DecidableEq, Repr

/-- Round a rational to the nearest integer, ties to even: the semantics of
Python 3 round() on an exact value. -/
def roundHalfEven (q : ℚ) : ℤ :=
  let f := ⌊q⌋
  let r := q - (f : ℚ)
  if r < 1/2 then f
  else if (1 : ℚ)/2 < r then f + 1
  else if f % 2 = 0 then f else f + 1

/-- Python round(x, 3): round to 3 decimal places. -/
def round3 (q : ℚ) : ℚ := (roundHalfEven (q * 1000) : ℚ) / 1000

/-- Metrics record returned by calculate_metrics (execute_detection_tests.py lines 92-123). -/
structure Metrics where
  TP : Nat
  FN : Nat
  FP : Nat
  TN : Nat
  total : Nat
  precision : ℚ
  «recall» : ℚ
  f1_score : ℚ
  accuracy : ℚ
deriving DecidableEq, Repr

/-- execute_detection_tests.py calculate_metrics: guarded ratios, each final value
rounded to 3 decimal places. -/
def calculate_metrics (results : Counts) : Metrics :=
  let tp := results.tp
  let fn := results.fn
  let fp := results.fp
  let tn := results.tn
  let total := tp + fn + fp + tn
  let precision : ℚ := if tp + fp > 0 then (tp : ℚ) / ((tp : ℚ) + (fp : ℚ)) else 0
  let rcl : ℚ := if tp + fn > 0 then (tp : ℚ) / ((tp : ℚ) + (fn : ℚ)) else 0
  let f1 : ℚ := if precision + rcl > 0 then 2 * (precision * rcl) / (precision + rcl) else 0
  let accuracy : ℚ := if total > 0 then ((tp : ℚ) + (tn : ℚ)) / (total : ℚ) else 0
  { TP := tp, FN := fn, FP := fp, TN := tn, total := total,
    precision := round3 precision, «recall» := round3 rcl,
    f1_score := round3 f1, accuracy := round3 accuracy }

/-- The unrounded precision intermediate of calculate_metrics (line 102). -/
def precisionExact (c : Counts) : ℚ :=
  if c.tp + c.fp > 0 then (c.tp : ℚ) / ((c.tp : ℚ) + (c.fp : ℚ)) else 0

/-- The unrounded recall intermediate of calculate_metrics (line 105). -/
def recallExact (c : Counts) : ℚ :=
  if c.tp + c.fn > 0 then (c.tp : ℚ) / ((c.tp : ℚ) + (c.fn : ℚ)) else 0

/-- Componentwise sum of per-rule counts (the spec's aggregation basis). -/
def sumCounts (l : List Counts) : Counts :=
  l.foldl (fun a b => ⟨a.tp + b.tp, a.fp + b.fp, a.tn + b.tn, a.fn + b.fn⟩) ⟨0, 0, 0, 0⟩

/-- execute_detection_tests.py main lines 271-281: sum each of the four counts
across rule results, then call calculate_metrics once on the sums. -/
def main_overall_metrics (all_results : List Counts) : Metrics :=
  let total_tp := (all_results.map Counts.tp).sum
  let total_fn := (all_results.map Counts.fn).sum
  let total_fp := (all_results.map Counts.fp).sum
  let total_tn := (all_results.map Counts.tn).sum
  calculate_metrics { tp := total_tp, fp := total_fp, tn := total_tn, fn := total_fn }

/-- One test case as the test_rule loop sees it: its expected_match flag, its
log_entry (an abstract document of type α), and whether the ingest and query
calls for this case succeed (external Elasticsearch behavior). -/
structure PayloadCase (α : Type) where
  expected_match : Bool
  log_entry : α
  ingest_ok : Bool
  query_ok : Bool
deriving DecidableEq, Repr

/-- execute_detection_tests.py test_rule lines 154-207: cases are processed in
order against one rule-scoped index; a failed ingest skips the case without
adding its document, a failed query skips the case after its document was
added; a successful query computes actual_match as nonemptiness of the full
result set of the accumulated index, then increments exactly one of the four
counts per the expected/actual table. -/
def test_rule_go {α : Type} (q : α → Bool) : List (PayloadCase α) → List α → Counts → Counts
  | [], _, acc => acc
  | c :: rest, ingested, acc =>
    if c.ingest_ok = false then
      test_rule_go q rest ingested acc
    else
      let ingested' := ingested ++ [c.log_entry]
      if c.query_ok = false then
        test_rule_go q rest ingested' acc
      else
        let hits := ingested'.filter q
        let actual := decide (0 < hits.length)
        let acc' :=
          if c.expected_match && actual then { acc with tp := acc.tp + 1 }
          else if c.expected_match && !actual then { acc with fn := acc.fn + 1 }
          else if !c.expected_match && actual then { acc with fp := acc.fp + 1 }
          else { acc with tn := acc.tn + 1 }
        test_rule_go q rest ingested' acc'

/-- Counts produced by test_rule for one rule: start from an empty fresh index
and zero counts (create_test_index drops and recreates the index). -/
def test_rule_counts {α : Type} (q : α → Bool) (cases : List (PayloadCase α)) : Counts :=
  test_rule_go q cases [] ⟨0, 0, 0, 0⟩

/-- Modelled from the spec (section 4.3 step 4): classification where
actually_matched is derived from membership of the test case's own document in
the query result set, for comparison with the implementation. Cases whose
ingest or query fails are skipped. -/
def spec_membership_counts {α : Type} (q : α → Bool) (cases : List (PayloadCase α)) : Counts :=
  cases.foldl
    (fun acc c =>
      if c.ingest_ok && c.query_ok then
        let actual := q c.log_entry
        if c.expected_match && actual then { acc with tp := acc.tp + 1 }
        else if c.expected_match && !actual then { acc with fn := acc.fn + 1 }
        else if !c.expected_match && actual then { acc with fp := acc.fp + 1 }
        else { acc with tn := acc.tn + 1 }
      else acc)
    ⟨0, 0, 0, 0⟩

/-- Diagnosis record of refine_detections_v2.py diagnose_failure (evidentiary
fields sample_fields/sample_payload/details omitted; issue, action and
confidence kept; confidence is absent on the no_test_payloads path). -/
structure Diagnosis where
  issue : String
  action : String
  confidence : Option ℚ
deriving DecidableEq, Repr

/-- refine_detections_v2.py diagnose_failure lines 34-90. The sample argument
models the filesystem lookup of a sample test payload for the rule: none when
the rule's test directory does not exist or holds no json file, some fields
when a sample payload was found. Checks apply in order, first match wins. -/
def diagnose_failure (m : Counts) (sample : Option (List String)) : Diagnosis :=
  if m.tp = 0 ∧ m.fp = 0 then
    match sample with
    | none => ⟨"no_test_payloads", "skip", none⟩
    | some _ => ⟨"field_mismatch", "research_and_convert", some (9/10)⟩
  else if m.fn > m.tp ∧ m.tp > 0 then ⟨"rule_too_strict", "research_evasion_techniques", some (3/4)⟩
  else if m.fp > m.tp ∧ m.tp > 0 then ⟨"rule_too_broad", "research_legitimate_uses", some (4/5)⟩
  else ⟨"unknown", "manual_review", some 0⟩

/-- Test-case kind literals of schemas/detection_rule.py TestCase.type. -/
inductive TCKind where
  | TP
  | FN
  | FP
  | TN
deriving DecidableEq, Repr

/-- Result of DetectionRule.validate_test_cases. -/
structure TCValidation where
  valid : Bool
  errors : List String
deriving DecidableEq, Repr

/-- schemas/detection_rule.py lines 73-85: collect an error for a missing TP
kind, then for a missing FN kind; valid iff no errors. -/
def validate_test_cases (kinds : List TCKind) : TCValidation :=
  let errors :=
    (if kinds.contains TCKind.TP then [] else ["Must have at least 1 TP (True Positive) test case"]) ++
    (if kinds.contains TCKind.FN then [] else ["Must have at least 1 FN (False Negative) test case"])
  if errors.isEmpty then ⟨true, []⟩ else ⟨false, errors⟩

/-- A candidate rule as seen by the validation step of agent.py
run_detection_agent: the kinds of its test cases and the overall_score the
external LLM validator would assign it (agent.py line 243 keeps rules whose
score is at least 0.75). -/
structure RuleCand where
  name : String
  kinds : List TCKind
  llm_score : ℚ
deriving DecidableEq, Repr

/-- agent.py lines 218-251: a rule survives to validated_rules (and is saved to
the rules directory) only when validate_test_cases passes and the LLM validator
score reaches 0.75. Rules failing validate_test_cases are skipped by continue
before the validator call. -/
def validatedRules (rules : List RuleCand) : List RuleCand :=
  rules.filter (fun r => (validate_test_cases r.kinds).valid && decide ((3 : ℚ)/4 ≤ r.llm_score))

/-- The test execution engine (execute_detection_tests.py main) is invoked once
per rule file saved by the agent, so the call count for a given rule is its
number of occurrences among the saved validated rules. -/
def engineCallCount (rules : List RuleCand) (r : RuleCand) : Nat :=
  ((validatedRules rules).filter (fun x => x = r)).length

/-- One iteration's externally determined outcome inside the
run_with_quality_retry loop body: an exception escaping the try block, a
zero-rule generation, a run_integration_tests failure (None), or a completed
test run with its reported precision, recall and f1. -/
inductive IterOutcome where
  | agentError (msg : String)
  | noRules
  | testFail (rules : Nat)
  | tested (rules : Nat) (precision rcl f1 : ℚ)
deriving DecidableEq, Repr

/-- One entry of iteration_history (quality_retry.py appends dicts with keys
iteration, rules_generated, precision, recall, status). -/
structure IterationRecord where
  iteration : Nat
  rules_generated : Nat
  precision : ℚ
  «recall» : ℚ
  status : String
deriving DecidableEq, Repr

/-- The dict returned by run_with_quality_retry. -/
structure RetrySummary where
  rules_generated : Nat
  precision : ℚ
  «recall» : ℚ
  f1_score : ℚ
  iterations_used : Nat
  quality_passed : Bool
  iteration_history : List IterationRecord
deriving DecidableEq, Repr

/-- quality_retry.py lines 204-212: the summary built when max_iterations is
reached without passing; its scalar fields are read from the last history
entry (or 0 when the history is empty) and f1_score is fixed at 0. -/
def exhaustedSummary (maxIter : Nat) (hist : List IterationRecord) : RetrySummary :=
  { rules_generated := ((hist.getLast?).map IterationRecord.rules_generated).getD 0,
    precision := ((hist.getLast?).map IterationRecord.precision).getD 0,
    «recall» := ((hist.getLast?).map IterationRecord.«recall»).getD 0,
    f1_score := 0,
    iterations_used := maxIter,
    quality_passed := false,
    iteration_history := hist }

/-- quality_retry.py line 198: the record printed as the best result, selected
by max over precision + recall (Python max keeps the first maximum). -/
def bestRecord (hist : List IterationRecord) : Option IterationRecord :=
  hist.foldl
    (fun acc r =>
      match acc with
      | none => some r
      | some b => if r.precision + r.«recall» > b.precision + b.«recall» then some r else some b)
    none

/-- The history record appended for one iteration with the given outcome
(quality_retry.py lines 83-89, 101-107, 146-152, 162-168, 183-189). -/
def iterRecord (pth rth : ℚ) (i : Nat) : IterOutcome → IterationRecord
  | .agentError msg => ⟨i, 0, 0, 0, "ERROR: " ++ msg.take 100⟩
  | .noRules => ⟨i, 0, 0, 0, "FAILED - No rules"⟩
  | .testFail r => ⟨i, r, 0, 0, "FAILED - Test execution error"⟩
  | .tested r p rc _ =>
    if pth ≤ p ∧ rth ≤ rc then ⟨i, r, p, rc, "PASSED"⟩
    else ⟨i, r, p, rc, "FAILED - Below quality threshold"⟩

/-- Whether an iteration outcome meets both quality thresholds
(quality_retry.py lines 126-129: precision >= threshold and recall >= threshold). -/
def outcomePasses (pth rth : ℚ) : IterOutcome → Prop
  | .tested _ p r _ => pth ≤ p ∧ rth ≤ r
  | _ => False

instance (pth rth : ℚ) (o : IterOutcome) : Decidable (outcomePasses pth rth o) :=
  match o with
  | .tested _ p r _ => inferInstanceAs (Decidable (pth ≤ p ∧ rth ≤ r))
  | .agentError _ => inferInstanceAs (Decidable False)
  | .noRules => inferInstanceAs (Decidable False)
  | .testFail _ => inferInstanceAs (Decidable False)

/-- The for-loop of run_with_quality_retry (quality_retry.py lines 40-212):
one list element per remaining iteration, i the 1-based iteration number, hist
the accumulated history. A passing tested iteration returns the accepted
summary immediately; every other outcome appends its record and continues; an
exhausted list returns the exhausted summary. -/
def quality_retry_go (pth rth : ℚ) (maxIter : Nat) :
    List IterOutcome → Nat → List IterationRecord → RetrySummary
  | [], _, hist => exhaustedSummary maxIter hist
  | o :: rest, i, hist =>
    match o with
    | .tested r p rc f1 =>
      if pth ≤ p ∧ rth ≤ rc then
        { rules_generated := r, precision := p, «recall» := rc, f1_score := f1,
          iterations_used := i, quality_passed := true,
          iteration_history := hist ++ [⟨i, r, p, rc, "PASSED"⟩] }
      else
        quality_retry_go pth rth maxIter rest (i + 1)
          (hist ++ [⟨i, r, p, rc, "FAILED - Below quality threshold"⟩])
    | .agentError msg =>
      quality_retry_go pth rth maxIter rest (i + 1)
        (hist ++ [⟨i, 0, 0, 0, "ERROR: " ++ msg.take 100⟩])
    | .noRules =>
      quality_retry_go pth rth maxIter rest (i + 1)
        (hist ++ [⟨i, 0, 0, 0, "FAILED - No rules"⟩])
    | .testFail r =>
      quality_retry_go pth rth maxIter rest (i + 1)
        (hist ++ [⟨i, r, 0, 0, "FAILED - Test execution error"⟩])

/-- run_with_quality_retry with max_iterations = outcomes.length: the external
world supplies one IterOutcome per iteration the loop may run. -/
def run_with_quality_retry (pth rth : ℚ) (outcomes : List IterOutcome) : RetrySummary :=
  quality_retry_go pth rth outcomes.length outcomes 1 []

/-- Records of the executed iterations, numbered from i. -/
def mkRecords (pth rth : ℚ) : Nat → List IterOutcome → List IterationRecord
  | _, [] => []
  | i, o :: rest => iterRecord pth rth i o :: mkRecords pth rth (i + 1) rest

/-- Number of iterations the loop executes: up to and including the first
passing outcome, or the whole list when none passes. -/
def executedCount (pth rth : ℚ) : List IterOutcome → Nat
  | [] => 0
  | o :: rest => if outcomePasses pth rth o then 1 else executedCount pth rth rest + 1

/-- quality_retry.py run_integration_tests lines 261-271: the precision, recall
and f1_score handed to the loop are read back from the overall_metrics of the
results document persisted by execute_detection_tests.py main, i.e. the rounded
aggregate metrics over the per-rule counts. -/
def run_integration_tests_result (perRule : List Counts) : ℚ × ℚ × ℚ :=
  let om := main_overall_metrics perRule
  (om.precision, om.«recall», om.f1_score)

/-- A tested iteration outcome whose metrics come from the integration-test
pipeline on the given per-rule counts. -/
def testedOutcomeOf (rules : Nat) (perRule : List Counts) : IterOutcome :=
  IterOutcome.tested rules (run_integration_tests_result perRule).1
    (run_integration_tests_result perRule).2.1 (run_integration_tests_result perRule).2.2

/-- agent.py lines 30-38: HttpRetryOptions fields. -/
structure HttpRetryOptions where
  initial_delay : ℚ
  attempts : Nat
  exp_base : ℚ
  max_delay : ℚ
  http_status_codes : List Nat
deriving DecidableEq, Repr

/-- agent.py AGGRESSIVE_RETRY_CONFIG (lines 30-38). -/
def AGGRESSIVE_RETRY_CONFIG : HttpRetryOptions :=
  { initial_delay := 15, attempts := 6, exp_base := 6, max_delay := 92,
    http_status_codes := [429, 500, 503, 504] }

/-- agent.py FLASH_RETRY_CONFIG (lines 40-48). -/
def FLASH_RETRY_CONFIG : HttpRetryOptions :=
  { initial_delay := 8, attempts := 4, exp_base := 3, max_delay := 72,
    http_status_codes := [429, 500, 503, 504] }

/-- agent.py MODELS entries (lines 54-67). -/
structure ModelConfig where
  name : String
  retry_config : HttpRetryOptions
  default_temp : ℚ
  default_thinking : Nat
deriving DecidableEq, Repr

/-- agent.py MODELS flash entry. -/
def flashModel : ModelConfig :=
  { name := "gemini-2.5-flash", retry_config := FLASH_RETRY_CONFIG,
    default_temp := 3/10, default_thinking := 6000 }

/-- agent.py MODELS pro entry. -/
def proModel : ModelConfig :=
  { name := "gemini-2.5-pro", retry_config := AGGRESSIVE_RETRY_CONFIG,
    default_temp := 2/10, default_thinking := 8000 }

/-- The outcome of one generate_content call as the retry loop observes it:
success with the response text, a ResourceExhausted (rate-limit) error, or any
other exception. -/
inductive CallResult where
  | success (text : String)
  | rateLimited (msg : String)
  | otherError (msg : String)
deriving DecidableEq, Repr

/-- The error generate_with_retry can raise. -/
inductive GenError where
  | rateLimited (msg : String)
  | other (msg : String)
  | maxRetriesExceeded
deriving DecidableEq, Repr

/-- Result of the retry loop together with the sleeps it performed, in order. -/
structure GenResult where
  result : Except GenError String
  delays : List ℚ
deriving Repr

/-- agent.py generate_with_retry lines 116-139: attempt is the 0-based index of
the current call, the second Nat is the number of attempts still allowed. A
rate-limited call on a non-final attempt sleeps min(20 * 2^attempt, 120) plus
jitter; any other exception on a non-final attempt sleeps a fixed 5; a final
attempt re-raises; an empty budget raises the max-retries error. -/
def gwr_run (calls : Nat → CallResult) (jitter : Nat → ℚ) (attempt : Nat) : Nat → GenResult
  | 0 => ⟨.error .maxRetriesExceeded, []⟩
  | remaining + 1 =>
    match calls attempt with
    | .success t => ⟨.ok t, []⟩
    | .rateLimited m =>
      if remaining = 0 then ⟨.error (.rateLimited m), []⟩
      else
        let delay : ℚ := min (20 * 2 ^ attempt) 120
        let rest := gwr_run calls jitter (attempt + 1) remaining
        ⟨rest.result, (delay + jitter attempt) :: rest.delays⟩
    | .otherError m =>
      if remaining = 0 then ⟨.error (.other m), []⟩
      else
        let rest := gwr_run calls jitter (attempt + 1) remaining
        ⟨rest.result, (5 : ℚ) :: rest.delays⟩

/-- agent.py generate_with_retry: the model_config argument is accepted (its
retry_config is read into a local at line 99) but the loop itself never uses
it; calls is the backend's response to each attempt and jitter the sampled
uniform jitter for each attempt. -/
def generate_with_retry (model_config : ModelConfig) (calls : Nat → CallResult)
    (jitter : Nat → ℚ) (max_retries : Nat) : GenResult :=
  gwr_run calls jitter 0 max_retries

instance : DecidableEq (Except GenError String) := fun x y =>
  match x, y with
  | .ok a, .ok b => decidable_of_iff (a = b) (by simp)
  | .error a, .error b => decidable_of_iff (a = b) (by simp)
  | .ok _, .error _ => isFalse (fun h => by simp at h)
  | .error _, .ok _ => isFalse (fun h => by simp at h)

instance : DecidableEq GenResult := fun x y =>
  match x, y with
  | ⟨r1, d1⟩, ⟨r2, d2⟩ =>
    decidable_of_iff (r1 = r2 ∧ d1 = d2) (by simp [GenResult.mk.injEq])

/-!
Helper lemmas shared by the claim theorems.
-/

/-- Evaluation rule for round3 on a value presented as integer part plus
remainder. -/
theorem round3_eval (q : ℚ) (f : ℤ) (r : ℚ) (hq : q * 1000 = (f : ℚ) + r)
    (h0 : 0 ≤ r) (h1 : r < 1) :
    round3 q =
      (if r < 1/2 then (f : ℚ) else if 1/2 < r then (f : ℚ) + 1
        else if f % 2 = 0 then (f : ℚ) else (f : ℚ) + 1) / 1000 := by
  have hfl : ⌊q * 1000⌋ = f := by
    rw [hq, add_comm, Int.floor_add_int, Int.floor_eq_zero_iff.mpr ⟨h0, h1⟩, zero_add]
  have hr : q * 1000 - ((f : ℤ) : ℚ) = r := by rw [hq]; ring
  unfold round3 roundHalfEven
  rw [hfl]
  simp only [hr, apply_ite (fun z : ℤ => (z : ℚ))]
  push_cast
  rfl

/-- round3 is the identity scaled back on exact multiples of 1/1000. -/
theorem round3_int (q : ℚ) (n : ℤ) (h : q * 1000 = (n : ℚ)) : round3 q = (n : ℚ) / 1000 := by
  have := round3_eval q n 0 (by rw [h]; ring) le_rfl (by norm_num)
  simpa using this

theorem round3_zero : round3 0 = 0 := by
  have := round3_int 0 0 (by norm_num)
  simpa using this

/-- sumCounts computes the componentwise sums of the four count fields. -/
theorem sumCounts_eq (l : List Counts) :
    sumCounts l =
      ⟨(l.map Counts.tp).sum, (l.map Counts.fp).sum, (l.map Counts.tn).sum,
        (l.map Counts.fn).sum⟩ := by
  suffices h : ∀ a : Counts,
      l.foldl (fun a b => ⟨a.tp + b.tp, a.fp + b.fp, a.tn + b.tn, a.fn + b.fn⟩) a =
        ⟨a.tp + (l.map Counts.tp).sum, a.fp + (l.map Counts.fp).sum,
          a.tn + (l.map Counts.tn).sum, a.fn + (l.map Counts.fn).sum⟩ by
    simpa [sumCounts] using h ⟨0, 0, 0, 0⟩
  induction l with
  | nil => intro a; simp
  | cons c rest ih =>
    intro a
    simp only [List.foldl_cons, List.map_cons, List.sum_cons, ih]
    simp only [Counts.mk.injEq]
    omega

/-- One failing step of the loop: append the record and continue. -/
theorem quality_retry_go_cons_fail (pth rth : ℚ) (m : Nat) (o : IterOutcome)
    (ho : ¬ outcomePasses pth rth o) (rest : List IterOutcome) (i : Nat)
    (hist : List IterationRecord) :
    quality_retry_go pth rth m (o :: rest) i hist =
      quality_retry_go pth rth m rest (i + 1) (hist ++ [iterRecord pth rth i o]) := by
  cases o with
  | tested r p rc f1 =>
    have h : ¬ (pth ≤ p ∧ rth ≤ rc) := ho
    simp [quality_retry_go, if_neg h, iterRecord]
  | agentError msg => simp [quality_retry_go, iterRecord]
  | noRules => simp [quality_retry_go, iterRecord]
  | testFail r => simp [quality_retry_go, iterRecord]

/-- One passing step of the loop: return the accepted summary immediately. -/
theorem quality_retry_go_cons_pass (pth rth : ℚ) (m : Nat) (r : Nat) (p rc f1 : ℚ)
    (hp : pth ≤ p) (hr : rth ≤ rc) (rest : List IterOutcome) (i : Nat)
    (hist : List IterationRecord) :
    quality_retry_go pth rth m (IterOutcome.tested r p rc f1 :: rest) i hist =
      { rules_generated := r, precision := p, «recall» := rc, f1_score := f1,
        iterations_used := i, quality_passed := true,
        iteration_history := hist ++ [⟨i, r, p, rc, "PASSED"⟩] } := by
  simp [quality_retry_go, if_pos (And.intro hp hr)]

/-- The iteration loop appends the record of every executed iteration to the
incoming history, executing up to and including the first passing outcome. -/
theorem quality_retry_go_history (pth rth : ℚ) (m : Nat) :
    ∀ (outcomes : List IterOutcome) (i : Nat) (hist : List IterationRecord),
      (quality_retry_go pth rth m outcomes i hist).iteration_history =
        hist ++ mkRecords pth rth i (outcomes.take (executedCount pth rth outcomes)) := by
  intro outcomes
  induction outcomes with
  | nil => intro i hist; simp [quality_retry_go, exhaustedSummary, mkRecords, executedCount]
  | cons o rest ih =>
    intro i hist
    by_cases hpass : outcomePasses pth rth o
    · cases o with
      | tested r p rc f1 =>
        obtain ⟨hp, hr⟩ := hpass
        rw [quality_retry_go_cons_pass pth rth m r p rc f1 hp hr]
        have h : outcomePasses pth rth (IterOutcome.tested r p rc f1) := ⟨hp, hr⟩
        simp [executedCount, if_pos h, mkRecords, iterRecord, if_pos (And.intro hp hr)]
      | agentError msg => simp [outcomePasses] at hpass
      | noRules => simp [outcomePasses] at hpass
      | testFail r => simp [outcomePasses] at hpass
    · rw [quality_retry_go_cons_fail pth rth m o hpass, ih]
      simp [executedCount, if_neg hpass, mkRecords, List.append_assoc]

theorem mkRecords_length (pth rth : ℚ) :
    ∀ (i : Nat) (l : List IterOutcome), (mkRecords pth rth i l).length = l.length := by
  intro i l
  induction l generalizing i with
  | nil => simp [mkRecords]
  | cons o rest ih => simp [mkRecords, ih]

theorem executedCount_le (pth rth : ℚ) :
    ∀ l : List IterOutcome, executedCount pth rth l ≤ l.length := by
  intro l
  induction l with
  | nil => simp [executedCount]
  | cons o rest ih =>
    by_cases h : outcomePasses pth rth o
    · simp [executedCount, if_pos h]
    · simp only [executedCount, if_neg h, List.length_cons]
      omega

/-- When no outcome passes, the loop runs to exhaustion and returns the
exhausted summary over the full record list. -/
theorem quality_retry_go_all_fail (pth rth : ℚ) (m : Nat) :
    ∀ (outcomes : List IterOutcome), (∀ o ∈ outcomes, ¬ outcomePasses pth rth o) →
      ∀ (i : Nat) (hist : List IterationRecord),
        quality_retry_go pth rth m outcomes i hist =
          exhaustedSummary m (hist ++ mkRecords pth rth i outcomes) := by
  intro outcomes
  induction outcomes with
  | nil => intro _ i hist; simp [quality_retry_go, mkRecords]
  | cons o rest ih =>
    intro hfail i hist
    have ho : ¬ outcomePasses pth rth o := hfail o (by simp)
    have hrest : ∀ x ∈ rest, ¬ outcomePasses pth rth x := fun x hx => hfail x (by simp [hx])
    rw [quality_retry_go_cons_fail pth rth m o ho, ih hrest]
    simp [mkRecords, List.append_assoc]

/-- A first passing iteration after a failing prefix returns the accepted
summary immediately, independent of anything after it. -/
theorem quality_retry_go_accept (pth rth : ℚ) (m : Nat) :
    ∀ (pre : List IterOutcome), (∀ o ∈ pre, ¬ outcomePasses pth rth o) →
      ∀ (r : Nat) (p rc f1 : ℚ), pth ≤ p → rth ≤ rc →
        ∀ (rest : List IterOutcome) (i : Nat) (hist : List IterationRecord),
          quality_retry_go pth rth m (pre ++ IterOutcome.tested r p rc f1 :: rest) i hist =
            { rules_generated := r, precision := p, «recall» := rc, f1_score := f1,
              iterations_used := i + pre.length, quality_passed := true,
              iteration_history :=
                hist ++ mkRecords pth rth i pre ++ [⟨i + pre.length, r, p, rc, "PASSED"⟩] } := by
  intro pre
  induction pre with
  | nil =>
    intro _ r p rc f1 hp hr rest i hist
    rw [List.nil_append, quality_retry_go_cons_pass pth rth m r p rc f1 hp hr]
    simp [mkRecords]
  | cons c pre' ih =>
    intro hfail r p rc f1 hp hr rest i hist
    have hc : ¬ outcomePasses pth rth c := hfail c (by simp)
    have hpre' : ∀ o ∈ pre', ¬ outcomePasses pth rth o := fun x hx => hfail x (by simp [hx])
    rw [List.cons_append, quality_retry_go_cons_fail pth rth m c hc,
      ih hpre' r p rc f1 hp hr rest (i + 1)]
    have harith : i + (pre'.length + 1) = i + 1 + pre'.length := by omega
    simp [mkRecords, harith, List.append_assoc]

/-- A run of k rate-limited calls followed by a success: the loop returns the
success and sleeps the capped exponential backoff plus jitter once per
rate-limited attempt. -/
theorem gwr_run_rl_success (calls : Nat → CallResult) (jitter : Nat → ℚ) (s : String) :
    ∀ (k attempt rem : Nat), k < rem →
      (∀ m, m < k → ∃ msg, calls (attempt + m) = CallResult.rateLimited msg) →
      calls (attempt + k) = CallResult.success s →
      gwr_run calls jitter attempt rem =
        ⟨.ok s,
          (List.range' attempt k).map (fun a => min (20 * 2 ^ a : ℚ) 120 + jitter a)⟩ := by
  intro k
  induction k with
  | zero =>
    intro attempt rem hlt _ hs
    obtain ⟨rem', rfl⟩ : ∃ rem', rem = rem' + 1 := ⟨rem - 1, by omega⟩
    simp only [Nat.add_zero] at hs
    simp [gwr_run, hs]
  | succ k ih =>
    intro attempt rem hlt hrl hs
    obtain ⟨rem', rfl⟩ : ∃ rem', rem = rem' + 1 := ⟨rem - 1, by omega⟩
    obtain ⟨msg, hmsg⟩ := hrl 0 (by omega)
    simp only [Nat.add_zero] at hmsg
    have hrem' : rem' ≠ 0 := by omega
    have ihx := ih (attempt + 1) rem' (by omega)
      (fun m hm => by
        obtain ⟨mm, hmm⟩ := hrl (m + 1) (by omega)
        exact ⟨mm, by rw [show attempt + 1 + m = attempt + (m + 1) from by omega]; exact hmm⟩)
      (by rw [show attempt + 1 + k = attempt + (k + 1) from by omega]; exact hs)
    simp only [gwr_run, hmsg, if_neg hrem', ihx, List.range'_succ, List.map_cons]

/-- When every call is rate-limited the loop exhausts its budget and re-raises
the rate-limit error. -/
theorem gwr_run_all_rl (jitter : Nat → ℚ) (msg : String) :
    ∀ (rem attempt : Nat), 0 < rem →
      (gwr_run (fun _ => CallResult.rateLimited msg) jitter attempt rem).result =
        Except.error (GenError.rateLimited msg) := by
  intro rem
  induction rem with
  | zero => intro attempt h; omega
  | succ rem' ih =>
    intro attempt _
    by_cases h : rem' = 0
    · subst h; simp [gwr_run]
    · simp [gwr_run, if_neg h, ih (attempt + 1) (by omega)]

/-- When every call raises a non-transient error the loop exhausts its budget
and re-raises that error. -/
theorem gwr_run_all_other (jitter : Nat → ℚ) (msg : String) :
    ∀ (rem attempt : Nat), 0 < rem →
      (gwr_run (fun _ => CallResult.otherError msg) jitter attempt rem).result =
        Except.error (GenError.other msg) := by
  intro rem
  induction rem with
  | zero => intro attempt h; omega
  | succ rem' ih =>
    intro attempt _
    by_cases h : rem' = 0
    · subst h; simp [gwr_run]
    · simp [gwr_run, if_neg h, ih (attempt + 1) (by omega)]

theorem calculate_metrics_precision (c : Counts) :
    (calculate_metrics c).precision = round3 (precisionExact c) := rfl

theorem calculate_metrics_recall (c : Counts) :
    (calculate_metrics c).«recall» = round3 (recallExact c) := rfl

theorem calculate_metrics_f1 (c : Counts) :
    (calculate_metrics c).f1_score =
      round3 (if precisionExact c + recallExact c > 0 then
        2 * (precisionExact c * recallExact c) / (precisionExact c + recallExact c) else 0) := rfl

/-- C2 (amended): for every count vector the metrics calculator returns the
guarded ratios rounded to 3 decimal places — precision = round3(tp/(tp+fp))
and 0.0 when tp+fp = 0, recall = round3(tp/(tp+fn)) and 0.0 when tp+fn = 0,
f1 = round3(2pr/(p+r)) over the unrounded p, r and 0.0 when p+r = 0, accuracy
= round3((tp+tn)/total) and 0.0 when the total is 0 — and
compute(tp 8, fp 2, fn 2, tn 20) yields precision 0.80, recall 0.80, f1 0.80
and accuracy 28/32. -/
theorem C2_metrics_guarded_rounded (c : Counts) :
    ((c.tp + c.fp = 0 → (calculate_metrics c).precision = 0) ∧
      (0 < c.tp + c.fp →
        (calculate_metrics c).precision = round3 ((c.tp : ℚ) / ((c.tp : ℚ) + (c.fp : ℚ))))) ∧
    ((c.tp + c.fn = 0 → (calculate_metrics c).«recall» = 0) ∧
      (0 < c.tp + c.fn →
        (calculate_metrics c).«recall» = round3 ((c.tp : ℚ) / ((c.tp : ℚ) + (c.fn : ℚ))))) ∧
    ((precisionExact c + recallExact c = 0 → (calculate_metrics c).f1_score = 0) ∧
      (0 < precisionExact c + recallExact c →
        (calculate_metrics c).f1_score =
          round3 (2 * (precisionExact c * recallExact c) / (precisionExact c + recallExact c)))) ∧
    ((c.tp + c.fn + c.fp + c.tn = 0 → (calculate_metrics c).accuracy = 0) ∧
      (0 < c.tp + c.fn + c.fp + c.tn →
        (calculate_metrics c).accuracy =
          round3 (((c.tp : ℚ) + (c.tn : ℚ)) / ((c.tp + c.fn + c.fp + c.tn : Nat) : ℚ)))) ∧
    calculate_metrics ⟨8, 2, 20, 2⟩ =
      { TP := 8, FN := 2, FP := 2, TN := 20, total := 32,
        precision := 4/5, «recall» := 4/5, f1_score := 4/5, accuracy := 7/8 } := by
  refine ⟨⟨?_, ?_⟩, ⟨?_, ?_⟩, ⟨?_, ?_⟩, ⟨?_, ?_⟩, ?_⟩
  · intro h
    have h0 : ¬ (c.tp + c.fp > 0) := by omega
    rw [calculate_metrics_precision, precisionExact, if_neg h0, round3_zero]
  · intro h
    rw [calculate_metrics_precision, precisionExact, if_pos h]
  · intro h
    have h0 : ¬ (c.tp + c.fn > 0) := by omega
    rw [calculate_metrics_recall, recallExact, if_neg h0, round3_zero]
  · intro h
    rw [calculate_metrics_recall, recallExact, if_pos h]
  · intro h
    have h0 : ¬ (precisionExact c + recallExact c > 0) := by rw [h]; exact lt_irrefl 0
    rw [calculate_metrics_f1, if_neg h0, round3_zero]
  · intro h
    rw [calculate_metrics_f1, if_pos h]
  · intro h
    have h0 : ¬ (c.tp + c.fn + c.fp + c.tn > 0) := by omega
    simp only [calculate_metrics]
    rw [if_neg h0, round3_zero]
  · intro h
    simp only [calculate_metrics]
    rw [if_pos h]
  · have h45 : round3 ((4 : ℚ)/5) = 4/5 := by
      have := round3_int ((4 : ℚ)/5) 800 (by norm_num)
      norm_num at this
      exact this
    have h78 : round3 ((7 : ℚ)/8) = 7/8 := by
      have := round3_int ((7 : ℚ)/8) 875 (by norm_num)
      norm_num at this
      exact this
    simp only [calculate_metrics]
    norm_num [Metrics.mk.injEq, h45, h78]

/-- C2 (counterexample): the claim states precision = tp/(tp+fp) exactly, but
at tp = 1, fp = 2 the calculator returns the 3-decimal rounding 0.333, which
differs from 1/3. -/
theorem C2_counterexample :
    (calculate_metrics ⟨1, 2, 0, 0⟩).precision = 333/1000 ∧
    (1 : ℚ) / ((1 : ℚ) + 2) = 1/3 ∧ (333 : ℚ)/1000 ≠ 1/3 := by
  refine ⟨?_, by norm_num, by norm_num⟩
  have h := round3_eval ((1 : ℚ)/(1 + 2)) 333 (1/3) (by norm_num) (by norm_num) (by norm_num)
  norm_num at h
  simp only [calculate_metrics]
  norm_num [h]

/-- C2 (witness): the amended theorem applied at concrete counts. -/
theorem C2_witness :
    (calculate_metrics ⟨0, 0, 7, 3⟩).precision = 0 ∧
    (calculate_metrics ⟨1, 2, 0, 0⟩).precision = round3 ((1 : ℚ) / ((1 : ℚ) + (2 : ℚ))) := by
  constructor
  · exact (C2_metrics_guarded_rounded ⟨0, 0, 7, 3⟩).1.1 rfl
  · have h := (C2_metrics_guarded_rounded ⟨1, 2, 0, 0⟩).1.2 (by norm_num)
    simpa using h

/-- C3: aggregate metrics are the metrics calculator applied to the
componentwise sum of the per-rule counts, never the average of per-rule
ratios; for the two rules (tp 2, fp 0, fn 0, tn 2) and (tp 0, fp 0, fn 2,
tn 2) the aggregate comes from summed counts (tp 2, fp 0, fn 2, tn 4), giving
precision 1.0 and recall 0.5, while averaging the two per-rule precisions
would give 0.5. -/
theorem C3_aggregate_by_summed_counts :
    (∀ l : List Counts, main_overall_metrics l = calculate_metrics (sumCounts l)) ∧
    sumCounts [⟨2, 0, 2, 0⟩, ⟨0, 0, 2, 2⟩] = ⟨2, 0, 4, 2⟩ ∧
    (main_overall_metrics [⟨2, 0, 2, 0⟩, ⟨0, 0, 2, 2⟩]).precision = 1 ∧
    (main_overall_metrics [⟨2, 0, 2, 0⟩, ⟨0, 0, 2, 2⟩]).«recall» = 1/2 ∧
    ((calculate_metrics ⟨2, 0, 2, 0⟩).precision + (calculate_metrics ⟨0, 0, 2, 2⟩).precision) / 2
      ≠ (main_overall_metrics [⟨2, 0, 2, 0⟩, ⟨0, 0, 2, 2⟩]).precision := by
  have h1 : round3 (1 : ℚ) = 1 := by
    have := round3_int (1 : ℚ) 1000 (by norm_num)
    norm_num at this
    exact this
  have h05 : round3 ((1 : ℚ)/2) = 1/2 := by
    have := round3_int ((1 : ℚ)/2) 500 (by norm_num)
    norm_num at this
    exact this
  refine ⟨?_, ?_, ?_, ?_, ?_⟩
  · intro l
    rw [sumCounts_eq]
    rfl
  · rw [sumCounts_eq]
    norm_num
  · simp only [main_overall_metrics, calculate_metrics]
    norm_num [h1]
  · simp only [main_overall_metrics, calculate_metrics]
    norm_num [h05]
  · simp only [main_overall_metrics, calculate_metrics]
    norm_num [h1, round3_zero]

/-- C10: every metric the calculator returns is an integer multiple of 1/1000
(3-decimal rounding), and the iteration controller compares these rounded
values against the thresholds: with per-rule counts tp 1499, fp 1001 the exact
precision 0.5996 is below the 0.60 threshold, but the persisted rounded value
is 0.600, so the quality gate passes. The spec states no rounding. -/
theorem C10_rounded_values_compared :
    (∀ c : Counts, ∃ n1 n2 n3 n4 : ℤ,
      (calculate_metrics c).precision = (n1 : ℚ) / 1000 ∧
      (calculate_metrics c).«recall» = (n2 : ℚ) / 1000 ∧
      (calculate_metrics c).f1_score = (n3 : ℚ) / 1000 ∧
      (calculate_metrics c).accuracy = (n4 : ℚ) / 1000) ∧
    (1499 : ℚ) / ((1499 : ℚ) + 1001) < 3/5 ∧
    (run_integration_tests_result [⟨1499, 1001, 0, 0⟩]).1 = 3/5 ∧
    (run_with_quality_retry (3/5) (7/10)
      [testedOutcomeOf 1 [⟨1499, 1001, 0, 0⟩]]).quality_passed = true := by
  have hp : (run_integration_tests_result [⟨1499, 1001, 0, 0⟩]).1 = 3/5 := by
    have h := round3_eval ((1499 : ℚ)/(1499 + 1001)) 599 (3/5)
      (by norm_num) (by norm_num) (by norm_num)
    norm_num at h
    simp only [run_integration_tests_result, main_overall_metrics, calculate_metrics]
    norm_num [h]
  have hrc : (run_integration_tests_result [⟨1499, 1001, 0, 0⟩]).2.1 = 1 := by
    have h1 : round3 (1 : ℚ) = 1 := by
      have := round3_int (1 : ℚ) 1000 (by norm_num)
      norm_num at this
      exact this
    simp only [run_integration_tests_result, main_overall_metrics, calculate_metrics]
    norm_num [h1]
  refine ⟨?_, by norm_num, hp, ?_⟩
  · intro c
    exact ⟨_, _, _, _, rfl, rfl, rfl, rfl⟩
  · simp only [testedOutcomeOf, hp, hrc]
    norm_num [run_with_quality_retry, quality_retry_go]

/-- C1 (amended): when max_iterations is reached without any iteration passing
both thresholds, the returned summary has quality_passed = false, f1_score 0,
iterations_used = max_iterations and the full iteration history, and its
precision, recall and rules_generated are those of the LAST recorded iteration
(0 when the history is empty); the best record by precision + recall is
selected only for console display, not for the returned summary. -/
theorem C1_exhausted_reports_last (pth rth : ℚ) (outcomes : List IterOutcome)
    (h : ∀ o ∈ outcomes, ¬ outcomePasses pth rth o) :
    (run_with_quality_retry pth rth outcomes).quality_passed = false ∧
    (run_with_quality_retry pth rth outcomes).f1_score = 0 ∧
    (run_with_quality_retry pth rth outcomes).iterations_used = outcomes.length ∧
    (run_with_quality_retry pth rth outcomes).iteration_history =
      mkRecords pth rth 1 outcomes ∧
    (run_with_quality_retry pth rth outcomes).precision =
      (((mkRecords pth rth 1 outcomes).getLast?).map IterationRecord.precision).getD 0 ∧
    (run_with_quality_retry pth rth outcomes).«recall» =
      (((mkRecords pth rth 1 outcomes).getLast?).map IterationRecord.«recall»).getD 0 ∧
    (run_with_quality_retry pth rth outcomes).rules_generated =
      (((mkRecords pth rth 1 outcomes).getLast?).map IterationRecord.rules_generated).getD 0 := by
  have key : run_with_quality_retry pth rth outcomes =
      exhaustedSummary outcomes.length (mkRecords pth rth 1 outcomes) := by
    have hk := quality_retry_go_all_fail pth rth outcomes.length outcomes h 1 []
    simpa [run_with_quality_retry] using hk
  rw [key]
  exact ⟨rfl, rfl, rfl, rfl, rfl, rfl, rfl⟩

/-- C1 (counterexample): with thresholds 0.60/0.70 and two failing tested
iterations, the first strictly better than the second, the best record by
precision + recall is iteration 1 with precision 0.5, but the returned
summary's precision is the last iteration's 0.1 — the claim that the summary
reports the best record is false. -/
theorem C1_counterexample :
    (run_with_quality_retry (3/5) (7/10)
      [.tested 1 (1/2) (1/2) (1/2), .tested 1 (1/10) (1/10) (1/10)]).quality_passed = false ∧
    bestRecord (run_with_quality_retry (3/5) (7/10)
      [.tested 1 (1/2) (1/2) (1/2), .tested 1 (1/10) (1/10) (1/10)]).iteration_history =
      some ⟨1, 1, 1/2, 1/2, "FAILED - Below quality threshold"⟩ ∧
    (run_with_quality_retry (3/5) (7/10)
      [.tested 1 (1/2) (1/2) (1/2), .tested 1 (1/10) (1/10) (1/10)]).precision = 1/10 ∧
    (run_with_quality_retry (3/5) (7/10)
      [.tested 1 (1/2) (1/2) (1/2), .tested 1 (1/10) (1/10) (1/10)]).«recall» = 1/10 ∧
    (1 : ℚ)/10 ≠ 1/2 := by
  refine ⟨?_, ?_, ?_, ?_, by norm_num⟩ <;>
    norm_num [run_with_quality_retry, quality_retry_go, exhaustedSummary, bestRecord]

/-- C1 (witness): the amended theorem applied to a concrete two-iteration
failing run. -/
theorem C1_witness :
    (run_with_quality_retry (3/5) (7/10)
      [.tested 1 (1/2) (1/2) (1/2), .noRules]).quality_passed = false ∧
    (run_with_quality_retry (3/5) (7/10)
      [.tested 1 (1/2) (1/2) (1/2), .noRules]).iterations_used = 2 := by
  have h := C1_exhausted_reports_last (3/5) (7/10)
    [.tested 1 (1/2) (1/2) (1/2), .noRules]
    (by
      intro o ho
      simp only [List.mem_cons, List.not_mem_nil, or_false] at ho
      rcases ho with rfl | rfl
      · intro hpass
        exact absurd hpass.1 (by norm_num)
      · intro hpass
        exact hpass)
  exact ⟨h.1, by simpa using h.2.2.1⟩

/-- C4: the first iteration meeting both thresholds terminates the loop
immediately with quality_passed = true, iterations_used equal to that
iteration number and the full history; the result does not depend on any
outcomes that would have followed. -/
theorem C4_accept_terminates (pth rth : ℚ) (pre : List IterOutcome)
    (h : ∀ o ∈ pre, ¬ outcomePasses pth rth o) (r : Nat) (p rc f1 : ℚ)
    (hp : pth ≤ p) (hr : rth ≤ rc) (rest : List IterOutcome) :
    (run_with_quality_retry pth rth
      (pre ++ IterOutcome.tested r p rc f1 :: rest)).quality_passed = true ∧
    (run_with_quality_retry pth rth
      (pre ++ IterOutcome.tested r p rc f1 :: rest)).iterations_used = pre.length + 1 ∧
    (run_with_quality_retry pth rth
      (pre ++ IterOutcome.tested r p rc f1 :: rest)).precision = p ∧
    (run_with_quality_retry pth rth
      (pre ++ IterOutcome.tested r p rc f1 :: rest)).«recall» = rc ∧
    (run_with_quality_retry pth rth
      (pre ++ IterOutcome.tested r p rc f1 :: rest)).f1_score = f1 ∧
    (run_with_quality_retry pth rth
      (pre ++ IterOutcome.tested r p rc f1 :: rest)).rules_generated = r ∧
    (run_with_quality_retry pth rth
      (pre ++ IterOutcome.tested r p rc f1 :: rest)).iteration_history =
      mkRecords pth rth 1 pre ++ [⟨pre.length + 1, r, p, rc, "PASSED"⟩] ∧
    run_with_quality_retry pth rth (pre ++ IterOutcome.tested r p rc f1 :: rest) =
      run_with_quality_retry pth rth (pre ++ [IterOutcome.tested r p rc f1]) := by
  have hc : 1 + pre.length = pre.length + 1 := by omega
  have E : ∀ rest' : List IterOutcome,
      run_with_quality_retry pth rth (pre ++ IterOutcome.tested r p rc f1 :: rest') =
        { rules_generated := r, precision := p, «recall» := rc, f1_score := f1,
          iterations_used := pre.length + 1, quality_passed := true,
          iteration_history :=
            mkRecords pth rth 1 pre ++ [⟨pre.length + 1, r, p, rc, "PASSED"⟩] } := by
    intro rest'
    unfold run_with_quality_retry
    rw [quality_retry_go_accept pth rth (pre ++ IterOutcome.tested r p rc f1 :: rest').length
      pre h r p rc f1 hp hr rest' 1 []]
    simp [hc]
  have E2 : run_with_quality_retry pth rth (pre ++ [IterOutcome.tested r p rc f1]) =
      { rules_generated := r, precision := p, «recall» := rc, f1_score := f1,
        iterations_used := pre.length + 1, quality_passed := true,
        iteration_history :=
          mkRecords pth rth 1 pre ++ [⟨pre.length + 1, r, p, rc, "PASSED"⟩] } := E []
  refine ⟨by rw [E rest], by rw [E rest], by rw [E rest], by rw [E rest], by rw [E rest],
    by rw [E rest], by rw [E rest], by rw [E rest, E2]⟩

/-- C4 (witness): the spec's end-to-end scenario: iteration 1 scores
precision 0.20, recall 0.25 (fail against 0.80/0.70), iteration 2 scores
0.80/0.80 (pass) — the loop terminates accepted at iteration 2. -/
theorem C4_witness :
    (run_with_quality_retry (4/5) (7/10)
      [.tested 1 (1/5) (1/4) (2/9), .tested 1 (4/5) (4/5) (4/5)]).quality_passed = true ∧
    (run_with_quality_retry (4/5) (7/10)
      [.tested 1 (1/5) (1/4) (2/9), .tested 1 (4/5) (4/5) (4/5)]).iterations_used = 2 := by
  have h := C4_accept_terminates (4/5) (7/10) [.tested 1 (1/5) (1/4) (2/9)]
    (by
      intro o ho
      simp only [List.mem_singleton] at ho
      subst ho
      intro hpass
      exact absurd hpass.1 (by norm_num))
    1 (4/5) (4/5) (4/5) (by norm_num) (by norm_num) []
  exact ⟨by simpa using h.1, by simpa using h.2.1⟩

/-- C5: every executed iteration contributes exactly one IterationRecord, in
order, whatever its outcome; error iterations carry the ERROR-class status
string and the other failure modes their FAILED-class strings; with three
below-threshold iterations the history has exactly 3 records numbered 1, 2, 3. -/
theorem C5_one_record_per_iteration :
    (∀ (pth rth : ℚ) (outcomes : List IterOutcome),
      (run_with_quality_retry pth rth outcomes).iteration_history =
        mkRecords pth rth 1 (outcomes.take (executedCount pth rth outcomes))) ∧
    (∀ (pth rth : ℚ) (outcomes : List IterOutcome),
      (run_with_quality_retry pth rth outcomes).iteration_history.length =
        executedCount pth rth outcomes) ∧
    (∀ (pth rth : ℚ) (i : Nat) (msg : String),
      (iterRecord pth rth i (IterOutcome.agentError msg)).status = "ERROR: " ++ msg.take 100) ∧
    (∀ (pth rth : ℚ) (i : Nat),
      (iterRecord pth rth i IterOutcome.noRules).status = "FAILED - No rules") ∧
    (∀ (pth rth : ℚ) (i r : Nat),
      (iterRecord pth rth i (IterOutcome.testFail r)).status = "FAILED - Test execution error") ∧
    (run_with_quality_retry (3/5) (7/10)
      [.tested 1 (1/10) (1/10) 0, .tested 1 (1/5) (1/5) 0,
        .tested 1 (1/2) (1/2) 0]).iteration_history.length = 3 ∧
    (run_with_quality_retry (3/5) (7/10)
      [.tested 1 (1/10) (1/10) 0, .tested 1 (1/5) (1/5) 0,
        .tested 1 (1/2) (1/2) 0]).iteration_history.map IterationRecord.iteration
      = [1, 2, 3] := by
  have hist : ∀ (pth rth : ℚ) (outcomes : List IterOutcome),
      (run_with_quality_retry pth rth outcomes).iteration_history =
        mkRecords pth rth 1 (outcomes.take (executedCount pth rth outcomes)) := by
    intro pth rth outcomes
    have hk := quality_retry_go_history pth rth outcomes.length outcomes 1 []
    simpa [run_with_quality_retry] using hk
  refine ⟨hist, ?_, fun _ _ _ _ => rfl, fun _ _ _ => rfl, fun _ _ _ _ => rfl, ?_, ?_⟩
  · intro pth rth outcomes
    rw [hist pth rth outcomes, mkRecords_length, List.length_take]
    exact min_eq_left (executedCount_le pth rth outcomes)
  · norm_num [run_with_quality_retry, quality_retry_go, exhaustedSummary]
  · norm_num [run_with_quality_retry, quality_retry_go, exhaustedSummary]

/-- C6 (counterexample): with tp = 0 and fp = 0 but no sample test payload
found on disk, the diagnoser returns no_test_payloads, not field_mismatch —
so its result is not determined by the counts alone. -/
theorem C6_counterexample :
    diagnose_failure ⟨0, 0, 5, 5⟩ none = ⟨"no_test_payloads", "skip", none⟩ ∧
    (diagnose_failure ⟨0, 0, 5, 5⟩ none).issue ≠ "field_mismatch" := by
  constructor
  · simp [diagnose_failure]
  · simp [diagnose_failure]

/-- C6 (amended): given that a sample test payload exists for the rule, the
diagnoser applies its checks in order with the first match winning:
tp = 0 and fp = 0 gives field_mismatch; else fn > tp with tp > 0 gives
rule_too_strict; else fp > tp with tp > 0 gives rule_too_broad; otherwise
unknown with confidence zero. When tp = 0 and fp = 0 but no sample payload
exists, it returns no_test_payloads instead. -/
theorem C6_diagnose_with_sample (m : Counts) (fs : List String) :
    ((m.tp = 0 ∧ m.fp = 0) →
      diagnose_failure m (some fs) =
        ⟨"field_mismatch", "research_and_convert", some (9/10)⟩) ∧
    (¬ (m.tp = 0 ∧ m.fp = 0) → (m.fn > m.tp ∧ m.tp > 0) →
      diagnose_failure m (some fs) =
        ⟨"rule_too_strict", "research_evasion_techniques", some (3/4)⟩) ∧
    (¬ (m.tp = 0 ∧ m.fp = 0) → ¬ (m.fn > m.tp ∧ m.tp > 0) → (m.fp > m.tp ∧ m.tp > 0) →
      diagnose_failure m (some fs) =
        ⟨"rule_too_broad", "research_legitimate_uses", some (4/5)⟩) ∧
    (¬ (m.tp = 0 ∧ m.fp = 0) → ¬ (m.fn > m.tp ∧ m.tp > 0) → ¬ (m.fp > m.tp ∧ m.tp > 0) →
      diagnose_failure m (some fs) = ⟨"unknown", "manual_review", some 0⟩) := by
  refine ⟨?_, ?_, ?_, ?_⟩
  · intro h1
    simp only [diagnose_failure, if_pos h1]
  · intro h1 h2
    simp only [diagnose_failure, if_neg h1, if_pos h2]
  · intro h1 h2 h3
    simp only [diagnose_failure, if_neg h1, if_neg h2, if_pos h3]
  · intro h1 h2 h3
    simp only [diagnose_failure, if_neg h1, if_neg h2, if_neg h3]

/-- C6 (witness): the three diagnoses of the claim at their concrete counts,
with a sample payload present. -/
theorem C6_witness :
    (diagnose_failure ⟨0, 0, 5, 5⟩ (some ["event"])).issue = "field_mismatch" ∧
    (diagnose_failure ⟨2, 0, 5, 5⟩ (some ["event"])).issue = "rule_too_strict" ∧
    (diagnose_failure ⟨2, 6, 5, 0⟩ (some ["event"])).issue = "rule_too_broad" := by
  refine ⟨?_, ?_, ?_⟩
  · rw [(C6_diagnose_with_sample ⟨0, 0, 5, 5⟩ ["event"]).1 (by decide)]
  · rw [(C6_diagnose_with_sample ⟨2, 0, 5, 5⟩ ["event"]).2.1 (by decide) (by decide)]
  · rw [(C6_diagnose_with_sample ⟨2, 6, 5, 0⟩ ["event"]).2.2.1 (by decide) (by decide) (by decide)]

/-- C7 (code bug evidence): a rule whose query matches the first payload and
not the second: the engine classifies the second, expected-no-match payload as
FP because the query still returns the first document from the accumulated
index, while the spec's membership-based classification records it as TN. -/
theorem C7_accumulated_index_misclassifies :
    test_rule_counts (fun n : Nat => n == 0)
      [⟨true, 0, true, true⟩, ⟨false, 1, true, true⟩] = ⟨1, 1, 0, 0⟩ ∧
    spec_membership_counts (fun n : Nat => n == 0)
      [⟨true, 0, true, true⟩, ⟨false, 1, true, true⟩] = ⟨1, 0, 1, 0⟩ ∧
    (⟨1, 1, 0, 0⟩ : Counts) ≠ ⟨1, 0, 1, 0⟩ := by
  refine ⟨by decide, by decide, by decide⟩

/-- C8: test-case validation succeeds exactly when the rule has at least one
TP-kind and one FN-kind test case; a rule failing the check is never among the
saved validated rules, so the test execution engine is never invoked for it. -/
theorem C8_invalid_rule_never_tested :
    (∀ kinds : List TCKind,
      (validate_test_cases kinds).valid = true ↔
        (kinds.contains TCKind.TP = true ∧ kinds.contains TCKind.FN = true)) ∧
    (∀ (rules : List RuleCand) (r : RuleCand),
      (validate_test_cases r.kinds).valid = false →
        r ∉ validatedRules rules ∧ engineCallCount rules r = 0) := by
  constructor
  · intro kinds
    by_cases h1 : TCKind.TP ∈ kinds <;> by_cases h2 : TCKind.FN ∈ kinds <;>
      simp [validate_test_cases, h1, h2]
  · intro rules r hv
    have hmem : r ∉ validatedRules rules := by
      intro hr
      rw [validatedRules, List.mem_filter] at hr
      have h2 := hr.2
      rw [Bool.and_eq_true] at h2
      rw [hv] at h2
      exact absurd h2.1 (by simp)
    refine ⟨hmem, ?_⟩
    simp only [engineCallCount]
    rw [List.length_eq_zero, List.filter_eq_nil_iff]
    intro a ha
    simp only [decide_eq_true_eq]
    intro heq
    exact hmem (heq ▸ ha)

/-- C8 (witness): a rule with a TP case but no FN case fails validation and
its engine call count in a concrete batch is 0. -/
theorem C8_witness :
    (validate_test_cases [TCKind.TP]).valid = false ∧
    engineCallCount
      [⟨"missing-fn", [TCKind.TP], 1⟩, ⟨"good", [TCKind.TP, TCKind.FN], 1⟩]
      ⟨"missing-fn", [TCKind.TP], 1⟩ = 0 := by
  have hv : (validate_test_cases ((⟨"missing-fn", [TCKind.TP], 1⟩ : RuleCand).kinds)).valid
      = false := by decide
  exact ⟨hv, (C8_invalid_rule_never_tested.2
    [⟨"missing-fn", [TCKind.TP], 1⟩, ⟨"good", [TCKind.TP, TCKind.FN], 1⟩]
    ⟨"missing-fn", [TCKind.TP], 1⟩ hv).2⟩

/-- C9 (amended): the retry loop treats the rate-limit error as the transient
case with backoff delay min(20 * 2^attempt, 120) plus jitter, but it also
retries every other error after a fixed 5-unit delay rather than propagating
it immediately; the attempt budget and backoff constants do not vary with the
model tier (the per-tier retry configs are accepted but unused by the loop);
and exhausting the attempt budget re-raises the final error. -/
theorem C9_retry_characterization :
    (∀ (cfg cfg' : ModelConfig) (calls : Nat → CallResult) (jitter : Nat → ℚ) (n : Nat),
      generate_with_retry cfg calls jitter n = generate_with_retry cfg' calls jitter n) ∧
    (∀ (cfg : ModelConfig) (calls : Nat → CallResult) (jitter : Nat → ℚ) (n k : Nat)
        (s : String), k < n →
      (∀ m, m < k → ∃ msg, calls m = CallResult.rateLimited msg) →
      calls k = CallResult.success s →
      generate_with_retry cfg calls jitter n =
        ⟨.ok s, (List.range k).map (fun a => min (20 * 2 ^ a : ℚ) 120 + jitter a)⟩) ∧
    (∀ (cfg : ModelConfig) (jitter : Nat → ℚ) (n : Nat) (msg : String), 0 < n →
      (generate_with_retry cfg (fun _ => CallResult.rateLimited msg) jitter n).result =
        Except.error (GenError.rateLimited msg)) ∧
    (∀ (cfg : ModelConfig) (jitter : Nat → ℚ) (n : Nat) (msg : String), 0 < n →
      (generate_with_retry cfg (fun _ => CallResult.otherError msg) jitter n).result =
        Except.error (GenError.other msg)) ∧
    (∀ (cfg : ModelConfig) (calls : Nat → CallResult) (jitter : Nat → ℚ) (n : Nat)
        (msg s : String), 2 ≤ n →
      calls 0 = CallResult.otherError msg → calls 1 = CallResult.success s →
      generate_with_retry cfg calls jitter n = ⟨.ok s, [5]⟩) := by
  refine ⟨fun _ _ _ _ _ => rfl, ?_, ?_, ?_, ?_⟩
  · intro cfg calls jitter n k s hk hrl hs
    have h := gwr_run_rl_success calls jitter s k 0 n hk
      (fun m hm => by simpa using hrl m hm) (by simpa using hs)
    unfold generate_with_retry
    rw [h, List.range_eq_range']
  · intro cfg jitter n msg hn
    exact gwr_run_all_rl jitter msg n 0 hn
  · intro cfg jitter n msg hn
    exact gwr_run_all_other jitter msg n 0 hn
  · intro cfg calls jitter n msg s hn h0 h1
    obtain ⟨n', rfl⟩ : ∃ n', n = n' + 2 := ⟨n - 2, by omega⟩
    unfold generate_with_retry
    simp [gwr_run, h0, h1]

/-- C9 (counterexample): a non-transient first error does not propagate
immediately — the loop sleeps 5 units and retries, returning the second
call's success; moreover the two model tiers have different retry configs yet
the loop behaves identically for both. -/
theorem C9_counterexample :
    (generate_with_retry flashModel
      (fun n => if n = 0 then CallResult.otherError "boom" else CallResult.success "ok")
      (fun _ => 0) 3).result = Except.ok "ok" ∧
    (generate_with_retry flashModel
      (fun n => if n = 0 then CallResult.otherError "boom" else CallResult.success "ok")
      (fun _ => 0) 3).delays = [5] ∧
    FLASH_RETRY_CONFIG ≠ AGGRESSIVE_RETRY_CONFIG ∧
    generate_with_retry flashModel
      (fun n => if n = 0 then CallResult.otherError "boom" else CallResult.success "ok")
      (fun _ => 0) 3 =
    generate_with_retry proModel
      (fun n => if n = 0 then CallResult.otherError "boom" else CallResult.success "ok")
      (fun _ => 0) 3 := by
  refine ⟨?_, ?_, ?_, rfl⟩
  · norm_num [generate_with_retry, gwr_run]
  · norm_num [generate_with_retry, gwr_run]
  · intro h
    have ha := congrArg HttpRetryOptions.attempts h
    simp [FLASH_RETRY_CONFIG, AGGRESSIVE_RETRY_CONFIG] at ha

/-- C9 (witness): one rate-limited call then success, budget 4: the amended
theorem yields the success with one backoff sleep of min(20 * 2^0, 120) = 20. -/
theorem C9_witness :
    generate_with_retry proModel
      (fun n => if n = 0 then CallResult.rateLimited "429" else CallResult.success "done")
      (fun _ => 0) 4 = ⟨Except.ok "done", [20]⟩ := by
  have h := C9_retry_characterization.2.1 proModel
    (fun n => if n = 0 then CallResult.rateLimited "429" else CallResult.success "done")
    (fun _ => 0) 4 1 "done" (by norm_num)
    (fun m hm => ⟨"429", by
      have hm0 : m = 0 := by omega
      subst hm0
      simp⟩)
    (by simp)
  rw [h]
  norm_num [List.range_succ]
